import Mathlib

/-!
# IronmanGame: the per-tick simulation of `src/App.jsx`

A shallow embedding of the game loop of `App.jsx`: the component state
(`useState` cells and the `lastObstacleTime` ref) is a record, the host
readings of one tick (held keys, viewport, clock, random sample) are a
record, and `update`, `startGame` and the two score effects are functions
on them. Coordinates are exact rationals, times are integer milliseconds.
-/

namespace IronmanGame

/-! ## Constants -/

def MOVE_SPEED : ℚ := 9
def SCROLL_SPEED : ℚ := 6
def OBSTACLE_WIDTH : ℚ := 100
def OBSTACLE_GAP : ℚ := 220
def SPAWN_RATE : Int := 1333
def PLAYER_WIDTH : ℚ := 110
def PLAYER_HEIGHT : ℚ := 65

/-- The names of the five background themes, in the order of `THEMES`. -/
def THEMES : List String :=
  ["Deep Space", "Mars Orbit", "Nebula Sector", "Deep Tech", "Sunset Horizon"]

/-! ## Data model -/

inductive GameState where
  | START
  | PLAYING
  | GAMEOVER
deriving DecidableEq, Repr

/-- A pair `{ x, y }`, used for `pos` and `velocity`. -/
structure Vec where
  x : ℚ
  y : ℚ
deriving DecidableEq

/-- An obstacle record `{ id, x, topHeight, passed }`. -/
structure Obstacle where
  id : Int
  x : ℚ
  topHeight : ℚ
  passed : Bool
deriving DecidableEq

/-- The state cells of `App` together with the `lastObstacleTime` ref. -/
structure Game where
  gameState : GameState
  score : Nat
  highScore : Nat
  pos : Vec
  velocity : Vec
  bgIndex : Nat
  obstacles : List Obstacle
  bgOffset : Int
  lastObstacleTime : Int

/-- What one tick reads from the host: the held-key set `keysPressed.current`,
`window.innerWidth`, `window.innerHeight`, `Date.now()` and `Math.random()`. -/
structure Env where
  keys : List String
  innerWidth : ℚ
  innerHeight : ℚ
  now : Int
  random : ℚ

/-- The state of `App` on mount (the `useState` / `useRef` initial values). -/
def initial : Game :=
  { gameState := GameState.START, score := 0, highScore := 0,
    pos := ⟨100, 300⟩, velocity := ⟨0, 0⟩, bgIndex := 0,
    obstacles := [], bgOffset := 0, lastObstacleTime := 0 }

/-! ## Input sampling and player movement -/

/-- The membership test `keysPressed.current.has(k)`. -/
def has (keys : List String) (k : String) : Bool := decide (k ∈ keys)

/-- The velocity `newVel` of `update`: four guarded, additive assignments. -/
def newVel (keys : List String) : Vec :=
  let v0 : Vec := ⟨0, 0⟩
  let v1 : Vec := if has keys "arrowup" || has keys "w" then { v0 with y := v0.y - MOVE_SPEED } else v0
  let v2 : Vec := if has keys "arrowdown" || has keys "s" then { v1 with y := v1.y + MOVE_SPEED } else v1
  let v3 : Vec := if has keys "arrowleft" || has keys "a" then { v2 with x := v2.x - MOVE_SPEED } else v2
  let v4 : Vec := if has keys "arrowright" || has keys "d" then { v3 with x := v3.x + MOVE_SPEED } else v3
  v4

/-- The updater passed to `setPos`. -/
def nextPos (prev v : Vec) (innerWidth innerHeight : ℚ) : Vec :=
  let nextX := max 20 (min (innerWidth - PLAYER_WIDTH) (prev.x + v.x))
  let nextY := max 20 (min (innerHeight - PLAYER_HEIGHT) (prev.y + v.y))
  { x := nextX, y := nextY }

/-! ## Obstacle field -/

/-- The rectangle `pRect`. -/
structure PRect where
  left : ℚ
  right : ℚ
  top : ℚ
  bottom : ℚ

/-- The hitbox `pRect` built from a player position. -/
def pRect (pos : Vec) : PRect :=
  { left := pos.x + 25, right := pos.x + PLAYER_WIDTH - 25,
    top := pos.y + 15, bottom := pos.y + PLAYER_HEIGHT - 15 }

/-- The scroll of one obstacle: `{ ...obs, x: obs.x - SCROLL_SPEED }`. -/
def scroll (obs : Obstacle) : Obstacle := { obs with x := obs.x - SCROLL_SPEED }

/-- The predicate of the cull `filter`: `obs.x > -OBSTACLE_WIDTH`. -/
def kept (obs : Obstacle) : Bool := decide (obs.x > -OBSTACLE_WIDTH)

/-- The list `prev.map(scroll).filter(kept)`. -/
def scrolled (prev : List Obstacle) : List Obstacle := (prev.map scroll).filter kept

/-- The spawn test `now - lastObstacleTime.current > SPAWN_RATE`. -/
def spawnDue (lastObstacleTime now : Int) : Bool := decide (now - lastObstacleTime > SPAWN_RATE)

/-- The sampled gap height `Math.random() * (innerHeight - OBSTACLE_GAP - 150) + 75`. -/
def spawnHeight (random innerHeight : ℚ) : ℚ := random * (innerHeight - OBSTACLE_GAP - 150) + 75

/-- The obstacle pushed by a spawning tick. -/
def spawned (env : Env) : Obstacle :=
  { id := env.now, x := env.innerWidth, topHeight := spawnHeight env.random env.innerHeight,
    passed := false }

/-- The list `next` at the point where the collision loop starts: scrolled,
culled and, when a spawn is due, extended by the new obstacle. -/
def liveObstacles (prev : List Obstacle) (lastObstacleTime : Int) (env : Env) : List Obstacle :=
  let next := scrolled prev
  if spawnDue lastObstacleTime env.now then next ++ [spawned env] else next

/-- The nested collision test of the loop body. -/
def hits (r : PRect) (obs : Obstacle) : Bool :=
  (decide (r.right > obs.x + 10) && decide (r.left < obs.x + OBSTACLE_WIDTH - 10)) &&
    (decide (r.top < obs.topHeight) || decide (r.bottom > obs.topHeight + OBSTACLE_GAP))

/-- The pass-through test of the loop body. -/
def passes (r : PRect) (obs : Obstacle) : Bool :=
  !obs.passed && decide (obs.x + OBSTACLE_WIDTH < r.left)

/-- What the `for (let obs of next)` loop carries: the pending `gameState`,
the pending `score` and the obstacles already visited. -/
structure LoopState where
  gameState : GameState
  score : Nat
  visited : List Obstacle

/-- One iteration of the loop. -/
def loopBody (r : PRect) (st : LoopState) (obs : Obstacle) : LoopState :=
  let gs := if hits r obs then GameState.GAMEOVER else st.gameState
  if passes r obs then
    { gameState := gs, score := st.score + 1, visited := st.visited ++ [{ obs with passed := true }] }
  else
    { gameState := gs, score := st.score, visited := st.visited ++ [obs] }

/-- The whole loop over `next`. -/
def collisionLoop (r : PRect) (next : List Obstacle) (gs : GameState) (score : Nat) : LoopState :=
  next.foldl (loopBody r) { gameState := gs, score := score, visited := [] }

/-! ## The tick, the reset and the effects -/

/-- One call of `update`. The hitbox is built from `pos` as captured by the
callback, that is the position held in the state when the tick starts.
`bgOffset` only takes integer values (it starts at 0 and moves by
`SCROLL_SPEED / 2 = 3`), so the remainder `%` is the truncating `Int.tmod`. -/
def update (g : Game) (env : Env) : Game :=
  if g.gameState ≠ GameState.PLAYING then g
  else
    let v := newVel env.keys
    let p := nextPos g.pos v env.innerWidth env.innerHeight
    let next := liveObstacles g.obstacles g.lastObstacleTime env
    let last := if spawnDue g.lastObstacleTime env.now then env.now else g.lastObstacleTime
    let st := collisionLoop (pRect g.pos) next g.gameState g.score
    { g with
      gameState := st.gameState, score := st.score, pos := p, velocity := v,
      obstacles := st.visited, bgOffset := Int.tmod (g.bgOffset - 3) 1000,
      lastObstacleTime := last }

/-- The reset `startGame`, called at clock reading `now`. -/
def startGame (g : Game) (now : Int) : Game :=
  { g with
    gameState := GameState.PLAYING, score := 0, bgIndex := 0,
    pos := ⟨150, 300⟩, velocity := ⟨0, 0⟩, obstacles := [], lastObstacleTime := now }

/-- The effect "background switching every 5 points". -/
def themeEffect (g : Game) : Game :=
  if g.score > 0 ∧ g.score % 5 = 0 then
    let nextIndex := (g.score / 5) % THEMES.length
    if nextIndex ≠ g.bgIndex then { g with bgIndex := nextIndex } else g
  else g

/-- The effect that raises `highScore`. -/
def highScoreEffect (g : Game) : Game :=
  if g.score > g.highScore then { g with highScore := g.score } else g

/-- The loop body's effect on one obstacle: the one-shot `passed` flip. -/
def mark (r : PRect) (obs : Obstacle) : Obstacle :=
  if passes r obs then { obs with passed := true } else obs

/-- A run of ticks, one `update` per host reading, oldest first. -/
def runTicks (g : Game) (envs : List Env) : Game := envs.foldl update g

/-- The number of obstacles of a field whose `passed` flag is still false. -/
def unpassed (obs : List Obstacle) : Nat := obs.countP fun o => !o.passed

/-- The number of ticks of a run that push a new obstacle. -/
def spawnCount : Game → List Env → Nat
  | _, [] => 0
  | g, env :: envs =>
    (if g.gameState = GameState.PLAYING ∧ spawnDue g.lastObstacleTime env.now = true then 1 else 0)
      + spawnCount (update g env) envs

/-- The render that follows a tick: `update`, then the theme effect and the
high-score effect, in the order the component declares them. -/
def frame (g : Game) (env : Env) : Game := highScoreEffect (themeEffect (update g env))

/-- What can happen to the component: a click on a begin button, a tick of
the loop, a run of the theme effect, a run of the high-score effect. -/
inductive Action where
  | begin (now : Int)
  | tick (env : Env)
  | themeFx
  | highScoreFx

def step (g : Game) : Action → Game
  | Action.begin now => startGame g now
  | Action.tick env => update g env
  | Action.themeFx => themeEffect g
  | Action.highScoreFx => highScoreEffect g

def run (g : Game) (acts : List Action) : Game := acts.foldl step g

/-- The host reading of the tick at `k` milliseconds after `t0`: no key held,
viewport 800x600, random sample `rnd k`. -/
def msEnv (t0 : Int) (rnd : Nat → ℚ) (k : Nat) : Env :=
  { keys := [], innerWidth := 800, innerHeight := 600, now := t0 + k, random := rnd k }

/-- The state before the tick at elapsed time `n`: the ticks at elapsed times
`0, 1, ..., n - 1` have run. -/
def runMs (g : Game) (t0 : Int) (rnd : Nat → ℚ) : Nat → Game
  | 0 => g
  | n + 1 => update (runMs g t0 rnd n) (msEnv t0 rnd n)

/-- A game in play at (150, 300) with one unpassed obstacle at x = 50. -/
def sampleGame : Game := { startGame initial 0 with obstacles := [⟨1, 50, 100, false⟩] }

/-- A tick reading with no key held, viewport 800x600, 16 ms after the start. -/
def sampleEnv : Env := { keys := [], innerWidth := 800, innerHeight := 600, now := 16, random := 1 / 2 }

/-- A game in play at (150, 300) with one obstacle that scrolls to x = 150 and
whose gap starts at 310, five below the hitbox top 315. -/
def grazeGame : Game := { startGame initial 0 with obstacles := [⟨1, 156, 310, false⟩] }

/-- A tick reading with the up key held, viewport 800x600. -/
def upEnv : Env := { keys := ["arrowup"], innerWidth := 800, innerHeight := 600, now := 16, random := 1 / 2 }

/-- A game in play at Score 4 with two unpassed obstacles, at x = 50 and
x = 60, both about to clear the hitbox's left edge in one tick. -/
def skipGame : Game :=
  { startGame initial 0 with score := 4, obstacles := [⟨1, 50, 100, false⟩, ⟨2, 60, 100, false⟩] }

/-- A game in play at Score 4 with one unpassed obstacle at x = 50. -/
def fourGame : Game := { startGame initial 0 with score := 4, obstacles := [⟨1, 50, 100, false⟩] }

/-- The field invariant behind the cull: the player is at x >= 20 and every
obstacle still unpassed is at x >= -55, well right of the cull line. -/
def FieldOk (g : Game) : Prop :=
  20 ≤ g.pos.x ∧ ∀ obs ∈ g.obstacles, obs.passed = true ∨ -55 ≤ obs.x

/-- A tick reading in a viewport of width 0 at which a spawn is due. -/
def narrowSpawnEnv : Env := { keys := [], innerWidth := 0, innerHeight := 600, now := 1334, random := 1 / 2 }

/-- A tick reading in a viewport of width 0, one millisecond later. -/
def narrowEnv : Env := { keys := [], innerWidth := 0, innerHeight := 600, now := 1335, random := 1 / 2 }

/-- A run in a viewport of width 0: the first tick spawns an obstacle at x = 0,
sixteen more ticks scroll it to x = -96. -/
def narrowRun : List Env := narrowSpawnEnv :: List.replicate 16 narrowEnv

/-! ## The collision loop in closed form -/

theorem foldl_loopBody (r : PRect) (next : List Obstacle) (st : LoopState) :
    next.foldl (loopBody r) st =
      { gameState := if next.any (hits r) = true then GameState.GAMEOVER else st.gameState,
        score := st.score + next.countP (passes r),
        visited := st.visited ++ next.map (mark r) } := by
  induction next generalizing st with
  | nil => simp
  | cons obs rest ih =>
    rw [List.foldl_cons, ih]
    by_cases hp : passes r obs = true <;> by_cases hh : hits r obs = true <;>
      simp [loopBody, mark, hp, hh, List.countP_cons] <;> omega

theorem collisionLoop_eq (r : PRect) (next : List Obstacle) (gs : GameState) (score : Nat) :
    collisionLoop r next gs score =
      { gameState := if next.any (hits r) = true then GameState.GAMEOVER else gs,
        score := score + next.countP (passes r),
        visited := next.map (mark r) } := by
  simp [collisionLoop, foldl_loopBody]

theorem update_of_not_playing (g : Game) (env : Env) (h : g.gameState ≠ GameState.PLAYING) :
    update g env = g := by
  simp [update, h]

theorem update_gameState (g : Game) (env : Env) (h : g.gameState = GameState.PLAYING) :
    (update g env).gameState =
      if (liveObstacles g.obstacles g.lastObstacleTime env).any (hits (pRect g.pos)) = true
      then GameState.GAMEOVER else GameState.PLAYING := by
  simp [update, h, collisionLoop_eq]

theorem update_score (g : Game) (env : Env) (h : g.gameState = GameState.PLAYING) :
    (update g env).score =
      g.score + (liveObstacles g.obstacles g.lastObstacleTime env).countP (passes (pRect g.pos)) := by
  simp [update, h, collisionLoop_eq]

theorem update_obstacles (g : Game) (env : Env) (h : g.gameState = GameState.PLAYING) :
    (update g env).obstacles =
      (liveObstacles g.obstacles g.lastObstacleTime env).map (mark (pRect g.pos)) := by
  simp [update, h, collisionLoop_eq]

theorem update_pos (g : Game) (env : Env) (h : g.gameState = GameState.PLAYING) :
    (update g env).pos = nextPos g.pos (newVel env.keys) env.innerWidth env.innerHeight := by
  simp [update, h]

theorem update_lastObstacleTime (g : Game) (env : Env) (h : g.gameState = GameState.PLAYING) :
    (update g env).lastObstacleTime =
      if spawnDue g.lastObstacleTime env.now = true then env.now else g.lastObstacleTime := by
  simp [update, h]

theorem hits_iff (r : PRect) (obs : Obstacle) :
    hits r obs = true ↔
      r.right > obs.x + 10 ∧ r.left < obs.x + OBSTACLE_WIDTH - 10 ∧
        (r.top < obs.topHeight ∨ r.bottom > obs.topHeight + OBSTACLE_GAP) := by
  simp [hits, and_assoc]

/-! ## C1: the collision decision of one tick -/

/-- C1: a PLAYING tick ends in GAMEOVER exactly when some live obstacle (after
this tick's scroll, cull and spawn) overlaps the inset horizontal span of the
hitbox while the hitbox leaves the gap at the top or at the bottom; a hitbox
that, for every live obstacle, only touches the inset span or lies inside the
gap leaves the state PLAYING. -/
theorem update_gameover_iff (g : Game) (env : Env) (h : g.gameState = GameState.PLAYING) :
    ((update g env).gameState = GameState.GAMEOVER ↔
      ∃ obs ∈ liveObstacles g.obstacles g.lastObstacleTime env,
        g.pos.x + PLAYER_WIDTH - 25 > obs.x + 10 ∧ g.pos.x + 25 < obs.x + OBSTACLE_WIDTH - 10 ∧
          (g.pos.y + 15 < obs.topHeight ∨
            g.pos.y + PLAYER_HEIGHT - 15 > obs.topHeight + OBSTACLE_GAP)) ∧
    ((∀ obs ∈ liveObstacles g.obstacles g.lastObstacleTime env,
        g.pos.x + PLAYER_WIDTH - 25 = obs.x + 10 ∨ g.pos.x + 25 = obs.x + OBSTACLE_WIDTH - 10 ∨
          (g.pos.y + 15 ≥ obs.topHeight ∧
            g.pos.y + PLAYER_HEIGHT - 15 ≤ obs.topHeight + OBSTACLE_GAP)) →
      (update g env).gameState = GameState.PLAYING) := by
  have key : (update g env).gameState = GameState.GAMEOVER ↔
      ∃ obs ∈ liveObstacles g.obstacles g.lastObstacleTime env,
        g.pos.x + PLAYER_WIDTH - 25 > obs.x + 10 ∧ g.pos.x + 25 < obs.x + OBSTACLE_WIDTH - 10 ∧
          (g.pos.y + 15 < obs.topHeight ∨
            g.pos.y + PLAYER_HEIGHT - 15 > obs.topHeight + OBSTACLE_GAP) := by
    rw [update_gameState g env h]
    constructor
    · intro hg
      by_cases hany : (liveObstacles g.obstacles g.lastObstacleTime env).any (hits (pRect g.pos)) = true
      · obtain ⟨obs, hmem, hhit⟩ := List.any_eq_true.mp hany
        exact ⟨obs, hmem, by simpa [pRect] using (hits_iff _ _).mp hhit⟩
      · simp [hany] at hg
    · rintro ⟨obs, hmem, hhit⟩
      have hany : (liveObstacles g.obstacles g.lastObstacleTime env).any (hits (pRect g.pos)) = true :=
        List.any_eq_true.mpr ⟨obs, hmem, (hits_iff _ _).mpr (by simpa [pRect] using hhit)⟩
      simp [hany]
  refine ⟨key, fun hmiss => ?_⟩
  have hno : ¬ (update g env).gameState = GameState.GAMEOVER := by
    rw [key]
    rintro ⟨obs, hmem, h1, h2, h3⟩
    rcases hmiss obs hmem with e | e | ⟨e1, e2⟩
    · exact absurd h1 (by rw [e]; exact lt_irrefl _)
    · exact absurd h2 (by rw [e]; exact lt_irrefl _)
    · rcases h3 with h3 | h3
      · exact absurd h3 (not_lt.mpr e1)
      · exact absurd h3 (not_lt.mpr e2)
  rw [update_gameState g env h] at hno ⊢
  by_cases hany : (liveObstacles g.obstacles g.lastObstacleTime env).any (hits (pRect g.pos)) = true
  · simp [hany] at hno
  · simp [hany]

/-- C1 at a concrete tick: the player at (150, 300), one obstacle that scrolls
to x = 150 with its gap at [310, 530], so the hitbox top 315 is inside. -/
theorem update_gameover_iff_witness :
    ({ startGame initial 0 with obstacles := [⟨1, 156, 310, false⟩] } : Game).gameState
        = GameState.PLAYING ∧
      (update { startGame initial 0 with obstacles := [⟨1, 156, 310, false⟩] }
        ⟨[], 800, 600, 16, 1 / 2⟩).gameState = GameState.PLAYING :=
  ⟨rfl, (update_gameover_iff { startGame initial 0 with obstacles := [⟨1, 156, 310, false⟩] }
      ⟨[], 800, 600, 16, 1 / 2⟩ rfl).2 (by
        norm_num [liveObstacles, scrolled, scroll, kept, spawnDue, startGame, initial, SPAWN_RATE,
          SCROLL_SPEED, OBSTACLE_WIDTH, OBSTACLE_GAP, PLAYER_WIDTH, PLAYER_HEIGHT])⟩

/-! ## C2: one score increment per obstacle -/

theorem unpassed_map_mark (r : PRect) (l : List Obstacle) :
    unpassed (l.map (mark r)) + l.countP (passes r) = unpassed l := by
  induction l with
  | nil => simp [unpassed]
  | cons obs rest ih =>
    simp only [unpassed] at ih ⊢
    rw [List.map_cons, List.countP_cons, List.countP_cons, List.countP_cons]
    by_cases hp : passes r obs = true
    · have hnp : obs.passed = false := by
        simp only [passes, Bool.and_eq_true, Bool.not_eq_true'] at hp
        exact hp.1
      have hm : (mark r obs).passed = true := by simp [mark, hp]
      simp only [hm, hnp, hp, Bool.not_true, Bool.not_false, Bool.false_eq_true, if_false,
        if_true]
      omega
    · have hm : mark r obs = obs := by simp [mark, hp]
      simp only [hm, hp, Bool.false_eq_true, if_false]
      omega

theorem unpassed_scrolled_le (prev : List Obstacle) : unpassed (scrolled prev) ≤ unpassed prev := by
  unfold unpassed scrolled
  calc List.countP (fun o => !o.passed) (List.filter kept (List.map scroll prev))
      ≤ List.countP (fun o => !o.passed) (List.map scroll prev) :=
        (List.filter_sublist _).countP_le _
    _ = List.countP (fun o => !o.passed) prev := by
        rw [List.countP_map]; rfl

theorem unpassed_live_le (prev : List Obstacle) (last : Int) (env : Env) :
    unpassed (liveObstacles prev last env) ≤
      unpassed prev + (if spawnDue last env.now = true then 1 else 0) := by
  have hs := unpassed_scrolled_le prev
  by_cases hd : spawnDue last env.now = true
  · simp only [liveObstacles, hd, if_true]
    simp only [unpassed, List.countP_append] at hs ⊢
    simp [spawned]
    exact hs
  · simp only [liveObstacles, hd]
    simpa using hs

theorem update_potential (g : Game) (env : Env) :
    (update g env).score + unpassed (update g env).obstacles ≤
      g.score + unpassed g.obstacles +
        (if g.gameState = GameState.PLAYING ∧ spawnDue g.lastObstacleTime env.now = true
          then 1 else 0) := by
  by_cases h : g.gameState = GameState.PLAYING
  · rw [update_score g env h, update_obstacles g env h]
    have h1 := unpassed_map_mark (pRect g.pos) (liveObstacles g.obstacles g.lastObstacleTime env)
    have h2 := unpassed_live_le g.obstacles g.lastObstacleTime env
    by_cases hd : spawnDue g.lastObstacleTime env.now = true
    · simp only [h, hd, and_self, if_true] at h2 ⊢
      omega
    · simp only [hd, and_false] at h2 ⊢
      simp only [Bool.false_eq_true, if_false] at h2 ⊢
      omega
  · rw [update_of_not_playing g env h]
    simp [h]

theorem runTicks_potential (envs : List Env) (g : Game) :
    (runTicks g envs).score + unpassed (runTicks g envs).obstacles ≤
      g.score + unpassed g.obstacles + spawnCount g envs := by
  induction envs generalizing g with
  | nil => simp [runTicks, spawnCount]
  | cons env rest ih =>
    have h1 := ih (update g env)
    have h2 := update_potential g env
    simp only [runTicks, List.foldl_cons, spawnCount] at h1 ⊢
    omega

theorem update_score_le (g : Game) (env : Env) : g.score ≤ (update g env).score := by
  by_cases h : g.gameState = GameState.PLAYING
  · rw [update_score g env h]; omega
  · rw [update_of_not_playing g env h]

theorem runTicks_score_le (envs : List Env) (g : Game) : g.score ≤ (runTicks g envs).score := by
  induction envs generalizing g with
  | nil => simp [runTicks]
  | cons env rest ih =>
    have h1 := ih (update g env)
    have h2 := update_score_le g env
    simp only [runTicks, List.foldl_cons] at h1 ⊢
    omega

/-- C2: a PLAYING tick raises Score by exactly the number of live obstacles
with `passed = false` whose right edge is left of the hitbox's left edge
`pos.x + 25`, and flips `passed` on exactly those; an obstacle already passed
stays passed through the scroll and is not counted; Score never decreases over
a run, and the Score gained over any run is at most the number of obstacles
that were ever unpassed in the field (those there at the start plus those
spawned), so no obstacle is counted twice. -/
theorem update_score_once (g : Game) (env : Env) (h : g.gameState = GameState.PLAYING) :
    (update g env).score = g.score +
        (liveObstacles g.obstacles g.lastObstacleTime env).countP
          (fun obs => !obs.passed && decide (obs.x + OBSTACLE_WIDTH < g.pos.x + 25)) ∧
    (update g env).obstacles =
        (liveObstacles g.obstacles g.lastObstacleTime env).map
          (fun obs => if obs.passed = false ∧ obs.x + OBSTACLE_WIDTH < g.pos.x + 25
            then { obs with passed := true } else obs) ∧
    (∀ obs ∈ g.obstacles, obs.passed = true →
        (scroll obs).passed = true ∧ passes (pRect g.pos) (scroll obs) = false ∧
          mark (pRect g.pos) (scroll obs) = scroll obs) ∧
    (∀ obs ∈ (update g env).obstacles, ∀ r : PRect,
        obs.x + OBSTACLE_WIDTH < g.pos.x + 25 → passes r obs = false) ∧
    (∀ envs : List Env, g.score ≤ (runTicks g envs).score) ∧
    (∀ envs : List Env, (runTicks g envs).score + unpassed (runTicks g envs).obstacles ≤
        g.score + unpassed g.obstacles + spawnCount g envs) := by
  refine ⟨?_, ?_, ?_, ?_, fun envs => runTicks_score_le envs g,
    fun envs => runTicks_potential envs g⟩
  · rw [update_score g env h]; rfl
  · rw [update_obstacles g env h]
    apply List.map_congr_left
    intro obs _
    simp [mark, passes, pRect]
  · intro obs _ hp
    have hs : (scroll obs).passed = true := by simpa [scroll] using hp
    refine ⟨hs, ?_, ?_⟩
    · simp [passes, hs]
    · simp [mark, passes, hs]
  · intro obs hmem r hlt
    rw [update_obstacles g env h] at hmem
    obtain ⟨o, _, rfl⟩ := List.mem_map.mp hmem
    by_cases hp : passes (pRect g.pos) o = true
    · have hm : (mark (pRect g.pos) o).passed = true := by simp [mark, hp]
      simp [passes, hm]
    · have hm : mark (pRect g.pos) o = o := by simp [mark, hp]
      rw [hm] at hlt ⊢
      have : o.passed = true := by
        by_contra hn
        apply hp
        simp only [passes, pRect, Bool.and_eq_true, Bool.not_eq_true', decide_eq_true_eq]
        exact ⟨by simpa using hn, hlt⟩
      simp [passes, this]

/-- C2 at a concrete tick: the obstacle scrolls to x = 44, its right edge 144
is left of the hitbox's left edge 175, and Score goes from 0 to 1. -/
theorem update_score_once_witness :
    sampleGame.gameState = GameState.PLAYING ∧
      (update sampleGame sampleEnv).score = sampleGame.score +
        (liveObstacles sampleGame.obstacles sampleGame.lastObstacleTime sampleEnv).countP
          (fun obs => !obs.passed && decide (obs.x + OBSTACLE_WIDTH < sampleGame.pos.x + 25)) :=
  ⟨rfl, (update_score_once sampleGame sampleEnv rfl).1⟩

/-! ## C3: the position clamp -/

theorem nextPos_bounds (prev v : Vec) (W H : ℚ) :
    20 ≤ (nextPos prev v W H).x ∧ (nextPos prev v W H).x ≤ max 20 (W - PLAYER_WIDTH) ∧
    20 ≤ (nextPos prev v W H).y ∧ (nextPos prev v W H).y ≤ max 20 (H - PLAYER_HEIGHT) := by
  simp only [nextPos]
  refine ⟨le_max_left _ _, max_le_max le_rfl (min_le_left _ _), le_max_left _ _,
    max_le_max le_rfl (min_le_left _ _)⟩

/-- C3 fails as stated: in an 800 wide viewport a player at x = 690 holding
the right key stays at x = 690, above 800 - PLAYER_WIDTH - 20 = 670. -/
theorem update_pos_upper_counterexample :
    (update { startGame initial 0 with pos := ⟨690, 300⟩ }
        ⟨["arrowright"], 800, 600, 16, 1 / 2⟩).pos.x = 690 ∧
      ¬ ((update { startGame initial 0 with pos := ⟨690, 300⟩ }
        ⟨["arrowright"], 800, 600, 16, 1 / 2⟩).pos.x ≤ 800 - PLAYER_WIDTH - 20) := by
  have h : (update { startGame initial 0 with pos := ⟨690, 300⟩ }
      ⟨["arrowright"], 800, 600, 16, 1 / 2⟩).pos.x = 690 := by
    rw [update_pos _ _ rfl]
    simp [nextPos, newVel, has, startGame, PLAYER_WIDTH, MOVE_SPEED]
    norm_num
  refine ⟨h, ?_⟩
  rw [h]
  norm_num [PLAYER_WIDTH]

/-- C3 (amended): the position produced by a PLAYING tick satisfies
20 <= x <= max(20, W - PLAYER_WIDTH) and 20 <= y <= max(20, H - PLAYER_HEIGHT):
the inset 20 bounds it from below only, the upper bound is the viewport extent
minus the sprite extent (with W >= PLAYER_WIDTH + 20 and
H >= PLAYER_HEIGHT + 20 simply x <= W - PLAYER_WIDTH, y <= H - PLAYER_HEIGHT). -/
theorem update_pos_bounds (g : Game) (env : Env) (h : g.gameState = GameState.PLAYING) :
    (20 ≤ (update g env).pos.x ∧ (update g env).pos.x ≤ max 20 (env.innerWidth - PLAYER_WIDTH)) ∧
    (20 ≤ (update g env).pos.y ∧ (update g env).pos.y ≤ max 20 (env.innerHeight - PLAYER_HEIGHT)) ∧
    (PLAYER_WIDTH + 20 ≤ env.innerWidth → (update g env).pos.x ≤ env.innerWidth - PLAYER_WIDTH) ∧
    (PLAYER_HEIGHT + 20 ≤ env.innerHeight →
      (update g env).pos.y ≤ env.innerHeight - PLAYER_HEIGHT) := by
  rw [update_pos g env h]
  obtain ⟨h1, h2, h3, h4⟩ := nextPos_bounds g.pos (newVel env.keys) env.innerWidth env.innerHeight
  refine ⟨⟨h1, h2⟩, ⟨h3, h4⟩, fun hw => ?_, fun hh => ?_⟩
  · have : max 20 (env.innerWidth - PLAYER_WIDTH) = env.innerWidth - PLAYER_WIDTH :=
      max_eq_right (by linarith)
    rw [this] at h2; exact h2
  · have : max 20 (env.innerHeight - PLAYER_HEIGHT) = env.innerHeight - PLAYER_HEIGHT :=
      max_eq_right (by linarith)
    rw [this] at h4; exact h4

/-- C3 (amended) at a concrete tick: from (150, 300) in an 800x600 viewport. -/
theorem update_pos_bounds_witness :
    sampleGame.gameState = GameState.PLAYING ∧
      20 ≤ (update sampleGame sampleEnv).pos.x ∧
      (update sampleGame sampleEnv).pos.x ≤ max 20 (sampleEnv.innerWidth - PLAYER_WIDTH) :=
  ⟨rfl, (update_pos_bounds sampleGame sampleEnv rfl).1⟩

/-! ## C4: the gap height of a spawned obstacle -/

theorem update_obstacles_spawn (g : Game) (env : Env) (h : g.gameState = GameState.PLAYING)
    (hd : spawnDue g.lastObstacleTime env.now = true) :
    (update g env).obstacles =
      (scrolled g.obstacles).map (mark (pRect g.pos)) ++ [mark (pRect g.pos) (spawned env)] := by
  rw [update_obstacles g env h]
  simp [liveObstacles, hd]

theorem update_obstacles_no_spawn (g : Game) (env : Env) (h : g.gameState = GameState.PLAYING)
    (hd : spawnDue g.lastObstacleTime env.now = false) :
    (update g env).obstacles = (scrolled g.obstacles).map (mark (pRect g.pos)) := by
  rw [update_obstacles g env h]
  simp [liveObstacles, hd]

theorem mark_fields (r : PRect) (obs : Obstacle) :
    (mark r obs).id = obs.id ∧ (mark r obs).x = obs.x ∧ (mark r obs).topHeight = obs.topHeight := by
  unfold mark
  split <;> simp

/-- C4 fails as stated, at both ends: in a 600 high viewport the sample 9/10
gives topHeight 282, above max(75, 600 - OBSTACLE_GAP - 150) = 230; in a 300
high viewport the sample 1/2 gives topHeight 40, below 75 (nothing clamps). -/
theorem spawn_height_counterexample :
    (update (startGame initial 0) ⟨[], 800, 600, 1334, 9 / 10⟩).obstacles
        = [⟨1334, 800, 282, false⟩] ∧
      ¬ ((282 : ℚ) ≤ max 75 (600 - OBSTACLE_GAP - 150)) ∧
    (update (startGame initial 0) ⟨[], 800, 300, 1334, 1 / 2⟩).obstacles
        = [⟨1334, 800, 40, false⟩] ∧
      ¬ ((75 : ℚ) ≤ 40) := by
  refine ⟨?_, ?_, ?_, ?_⟩
  · rw [update_obstacles_spawn _ _ rfl (by decide)]
    norm_num [scrolled, startGame, initial, mark, passes, pRect, spawned, spawnHeight,
      OBSTACLE_GAP, OBSTACLE_WIDTH]
  · norm_num [OBSTACLE_GAP]
  · rw [update_obstacles_spawn _ _ rfl (by decide)]
    norm_num [scrolled, startGame, initial, mark, passes, pRect, spawned, spawnHeight,
      OBSTACLE_GAP, OBSTACLE_WIDTH]
  · norm_num

/-- C4 (amended): a PLAYING tick whose spawn is due appends one obstacle with
topHeight = r * (H - OBSTACLE_GAP - 150) + 75, unclamped. For 0 <= r < 1 and
H >= OBSTACLE_GAP + 150 it lies in [75, H - OBSTACLE_GAP - 75], so the gap ends
at least 75 above the bottom edge; for H < OBSTACLE_GAP + 150 it lies in
(H - OBSTACLE_GAP - 75, 75]. -/
theorem update_spawn_height (g : Game) (env : Env) (h : g.gameState = GameState.PLAYING)
    (hd : spawnDue g.lastObstacleTime env.now = true)
    (h0 : 0 ≤ env.random) (h1 : env.random < 1) :
    ∃ obs : Obstacle,
      (update g env).obstacles = (scrolled g.obstacles).map (mark (pRect g.pos)) ++ [obs] ∧
      obs.id = env.now ∧ obs.x = env.innerWidth ∧
      obs.topHeight = env.random * (env.innerHeight - OBSTACLE_GAP - 150) + 75 ∧
      (OBSTACLE_GAP + 150 ≤ env.innerHeight →
        75 ≤ obs.topHeight ∧ obs.topHeight ≤ env.innerHeight - OBSTACLE_GAP - 75) ∧
      (env.innerHeight < OBSTACLE_GAP + 150 →
        env.innerHeight - OBSTACLE_GAP - 75 < obs.topHeight ∧ obs.topHeight ≤ 75) := by
  refine ⟨mark (pRect g.pos) (spawned env), update_obstacles_spawn g env h hd, ?_⟩
  obtain ⟨e1, e2, e3⟩ := mark_fields (pRect g.pos) (spawned env)
  rw [e1, e2, e3]
  refine ⟨rfl, rfl, rfl, fun hH => ?_, fun hH => ?_⟩
  · simp only [spawned, spawnHeight]
    have hw : 0 ≤ env.innerHeight - OBSTACLE_GAP - 150 := by linarith
    constructor
    · have := mul_nonneg h0 hw
      linarith
    · have : env.random * (env.innerHeight - OBSTACLE_GAP - 150)
          ≤ 1 * (env.innerHeight - OBSTACLE_GAP - 150) :=
        mul_le_mul_of_nonneg_right (le_of_lt h1) hw
      linarith
  · simp only [spawned, spawnHeight]
    have hw : env.innerHeight - OBSTACLE_GAP - 150 < 0 := by linarith
    constructor
    · have : 1 * (env.innerHeight - OBSTACLE_GAP - 150)
          < env.random * (env.innerHeight - OBSTACLE_GAP - 150) :=
        mul_lt_mul_of_neg_right h1 hw
      linarith
    · have := mul_nonpos_of_nonneg_of_nonpos h0 (le_of_lt hw)
      linarith

/-- C4 (amended) at a concrete tick: viewport 800x600, sample 1/2, spawn at
1334 ms after the start. -/
theorem update_spawn_height_witness :
    (startGame initial 0).gameState = GameState.PLAYING ∧
      spawnDue (startGame initial 0).lastObstacleTime 1334 = true ∧
      (0 : ℚ) ≤ 1 / 2 ∧ (1 / 2 : ℚ) < 1 ∧
      ∃ obs : Obstacle,
        (update (startGame initial 0) ⟨[], 800, 600, 1334, 1 / 2⟩).obstacles =
          (scrolled (startGame initial 0).obstacles).map (mark (pRect (startGame initial 0).pos))
            ++ [obs] ∧
        obs.topHeight = 1 / 2 * (600 - OBSTACLE_GAP - 150) + 75 :=
  ⟨rfl, by decide, by norm_num, by norm_num,
    (update_spawn_height (startGame initial 0) ⟨[], 800, 600, 1334, 1 / 2⟩ rfl (by decide)
      (by norm_num) (by norm_num)).imp fun _ hobs => ⟨hobs.1, hobs.2.2.2.1⟩⟩

/-! ## C5: the spawn cadence -/

theorem playing_of_update_playing (g : Game) (env : Env)
    (h : (update g env).gameState = GameState.PLAYING) : g.gameState = GameState.PLAYING := by
  by_contra hn
  rw [update_of_not_playing g env hn] at h
  exact hn h

theorem spawnDue_iff (last now : Int) : spawnDue last now = true ↔ now - last > 1333 := by
  simp [spawnDue, SPAWN_RATE]

theorem runMs_lastObstacleTime (g : Game) (t0 : Int) (rnd : Nat → ℚ) (k : Nat)
    (h : (runMs (startGame g t0) t0 rnd k).gameState = GameState.PLAYING) :
    (runMs (startGame g t0) t0 rnd k).lastObstacleTime = t0 + ((1334 * ((k - 1) / 1334) : Nat) : Int) := by
  induction k with
  | zero => simp [runMs, startGame]
  | succ n ih =>
    simp only [runMs] at h ⊢
    have hp := playing_of_update_playing _ _ h
    have hl := ih hp
    rw [update_lastObstacleTime _ _ hp]
    by_cases hd : spawnDue (runMs (startGame g t0) t0 rnd n).lastObstacleTime (msEnv t0 rnd n).now = true
    · rw [if_pos hd]
      rw [spawnDue_iff, hl] at hd
      simp only [msEnv] at hd ⊢
      omega
    · rw [if_neg hd, hl]
      rw [spawnDue_iff, hl] at hd
      simp only [msEnv] at hd
      omega

theorem runMs_spawnDue (g : Game) (t0 : Int) (rnd : Nat → ℚ) (k : Nat)
    (h : (runMs (startGame g t0) t0 rnd k).gameState = GameState.PLAYING) :
    spawnDue (runMs (startGame g t0) t0 rnd k).lastObstacleTime (msEnv t0 rnd k).now = true ↔
      0 < k ∧ k % 1334 = 0 := by
  rw [spawnDue_iff, runMs_lastObstacleTime g t0 rnd k h]
  simp only [msEnv]
  omega

theorem runMs_quiet (g : Game) (t0 : Int) (rnd : Nat → ℚ) (k : Nat) (hk : k ≤ 1334) :
    (runMs (startGame g t0) t0 rnd k).gameState = GameState.PLAYING ∧
      (runMs (startGame g t0) t0 rnd k).obstacles = [] := by
  induction k with
  | zero => simp [runMs, startGame]
  | succ n ih =>
    obtain ⟨hp, ho⟩ := ih (by omega)
    have hd : spawnDue (runMs (startGame g t0) t0 rnd n).lastObstacleTime (msEnv t0 rnd n).now
        = false := by
      have := runMs_spawnDue g t0 rnd n hp
      cases hsd : spawnDue (runMs (startGame g t0) t0 rnd n).lastObstacleTime (msEnv t0 rnd n).now
      · rfl
      · have := this.mp hsd
        omega
    simp only [runMs]
    refine ⟨?_, ?_⟩
    · rw [update_gameState _ _ hp]
      simp [liveObstacles, hd, ho, scrolled]
    · rw [update_obstacles_no_spawn _ _ hp hd]
      simp [ho, scrolled]

/-- C5 fails as stated: the tick at elapsed time 0 of a game just started
spawns nothing (the claim has an obstacle spawned at t = 0). -/
theorem spawn_at_zero_counterexample :
    (update (startGame initial 0) (msEnv 0 (fun _ => 1 / 2) 0)).gameState = GameState.PLAYING ∧
      (update (startGame initial 0) (msEnv 0 (fun _ => 1 / 2) 0)).obstacles = [] := by
  constructor
  · rw [update_gameState _ _ rfl]
    simp [liveObstacles, spawnDue, msEnv, startGame, initial, scrolled, SPAWN_RATE]
  · rw [update_obstacles_no_spawn _ _ rfl (by decide)]
    simp [scrolled, startGame]

/-- C5 (amended): for a game started at t0 and ticked at every millisecond of
elapsed time (no key held, viewport 800x600), while the game is PLAYING the
ticks that spawn are exactly those at the elapsed times 1334, 2668, ... (the
positive multiples of SPAWN_RATE + 1); such a tick appends exactly one
obstacle, at x = 800, and every other tick appends none. -/
theorem spawn_cadence (g : Game) (t0 : Int) (rnd : Nat → ℚ) (k : Nat)
    (h : (runMs (startGame g t0) t0 rnd k).gameState = GameState.PLAYING) :
    (spawnDue (runMs (startGame g t0) t0 rnd k).lastObstacleTime (msEnv t0 rnd k).now = true ↔
      0 < k ∧ k % 1334 = 0) ∧
    (update (runMs (startGame g t0) t0 rnd k) (msEnv t0 rnd k)).obstacles.length =
      (scrolled (runMs (startGame g t0) t0 rnd k).obstacles).length +
        (if 0 < k ∧ k % 1334 = 0 then 1 else 0) ∧
    (0 < k ∧ k % 1334 = 0 →
      ∃ obs : Obstacle,
        (update (runMs (startGame g t0) t0 rnd k) (msEnv t0 rnd k)).obstacles =
          (scrolled (runMs (startGame g t0) t0 rnd k).obstacles).map
            (mark (pRect (runMs (startGame g t0) t0 rnd k).pos)) ++ [obs] ∧
        obs.x = 800 ∧ obs.id = t0 + k) := by
  have hiff := runMs_spawnDue g t0 rnd k h
  refine ⟨hiff, ?_, fun hk => ?_⟩
  · by_cases hk : 0 < k ∧ k % 1334 = 0
    · rw [update_obstacles_spawn _ _ h (hiff.mpr hk), if_pos hk]
      simp
    · have hd : spawnDue (runMs (startGame g t0) t0 rnd k).lastObstacleTime (msEnv t0 rnd k).now
          = false := by
        cases hsd : spawnDue (runMs (startGame g t0) t0 rnd k).lastObstacleTime (msEnv t0 rnd k).now
        · rfl
        · exact absurd (hiff.mp hsd) hk
      rw [update_obstacles_no_spawn _ _ h hd, if_neg hk]
      simp
  · refine ⟨mark (pRect (runMs (startGame g t0) t0 rnd k).pos) (spawned (msEnv t0 rnd k)),
      update_obstacles_spawn _ _ h (hiff.mpr hk), ?_, ?_⟩
    · rw [(mark_fields _ _).2.1]; rfl
    · rw [(mark_fields _ _).1]; rfl

/-- C5 (amended) at the first spawning tick: 1334 ms after the start the game
is still PLAYING and the tick adds one obstacle. -/
theorem spawn_cadence_witness :
    (runMs (startGame initial 0) 0 (fun _ => 1 / 2) 1334).gameState = GameState.PLAYING ∧
      (update (runMs (startGame initial 0) 0 (fun _ => 1 / 2) 1334)
          (msEnv 0 (fun _ => 1 / 2) 1334)).obstacles.length =
        (scrolled (runMs (startGame initial 0) 0 (fun _ => 1 / 2) 1334).obstacles).length + 1 :=
  ⟨(runMs_quiet initial 0 (fun _ => 1 / 2) 1334 (le_refl _)).1, by
    have hlen := (spawn_cadence initial 0 (fun _ => 1 / 2) 1334
      (runMs_quiet initial 0 (fun _ => 1 / 2) 1334 (le_refl _)).1).2.1
    rw [if_pos (by decide)] at hlen
    exact hlen⟩

/-! ## C6: which position the collision and pass tests read -/

/-- C6 fails as stated: with the up key held the tick moves the player from
y = 300 to y = 291; the hitbox of the new position (top 306) is above the gap
top 310 of the overlapping obstacle, so a test on the post-movement position
would end the game, but the tick leaves the state PLAYING. -/
theorem post_move_hitbox_counterexample :
    (update grazeGame upEnv).pos = ⟨150, 291⟩ ∧
      (liveObstacles grazeGame.obstacles grazeGame.lastObstacleTime upEnv).any
        (hits (pRect (update grazeGame upEnv).pos)) = true ∧
      (update grazeGame upEnv).gameState = GameState.PLAYING := by
  have hpos : (update grazeGame upEnv).pos = ⟨150, 291⟩ := by
    rw [update_pos _ _ rfl]
    simp [nextPos, newVel, has, grazeGame, upEnv, startGame, PLAYER_WIDTH, PLAYER_HEIGHT,
      MOVE_SPEED]
    norm_num
  refine ⟨hpos, ?_, ?_⟩
  · rw [hpos]
    norm_num [liveObstacles, scrolled, scroll, kept, spawnDue, grazeGame, upEnv, startGame,
      initial, hits, pRect, SPAWN_RATE, SCROLL_SPEED, OBSTACLE_WIDTH, OBSTACLE_GAP, PLAYER_WIDTH,
      PLAYER_HEIGHT]
  · rw [update_gameState _ _ rfl]
    norm_num [liveObstacles, scrolled, scroll, kept, spawnDue, grazeGame, upEnv, startGame,
      initial, hits, pRect, SPAWN_RATE, SCROLL_SPEED, OBSTACLE_WIDTH, OBSTACLE_GAP, PLAYER_WIDTH,
      PLAYER_HEIGHT]

/-- C6 (amended): the hitbox a PLAYING tick tests for GAMEOVER and for
pass-through is built from the position held when the tick starts, tested
against the obstacles as scrolled (culled, spawned) in that tick; the position
the tick produces, clamp(prev + velocity), is the one the next tick tests. -/
theorem update_tests_start_position (g : Game) (env : Env)
    (h : g.gameState = GameState.PLAYING) :
    ((update g env).gameState = GameState.GAMEOVER ↔
      (liveObstacles g.obstacles g.lastObstacleTime env).any (hits (pRect g.pos)) = true) ∧
    (update g env).score =
      g.score + (liveObstacles g.obstacles g.lastObstacleTime env).countP (passes (pRect g.pos)) ∧
    (update g env).pos = nextPos g.pos (newVel env.keys) env.innerWidth env.innerHeight ∧
    (∀ env2 : Env, (update g env).gameState = GameState.PLAYING →
      ((update (update g env) env2).gameState = GameState.GAMEOVER ↔
        (liveObstacles (update g env).obstacles (update g env).lastObstacleTime env2).any
          (hits (pRect (nextPos g.pos (newVel env.keys) env.innerWidth env.innerHeight))) = true) ∧
      (update (update g env) env2).score = (update g env).score +
        (liveObstacles (update g env).obstacles (update g env).lastObstacleTime env2).countP
          (passes (pRect (nextPos g.pos (newVel env.keys) env.innerWidth env.innerHeight)))) := by
  have hgo : ∀ (g : Game) (env : Env), g.gameState = GameState.PLAYING →
      ((update g env).gameState = GameState.GAMEOVER ↔
        (liveObstacles g.obstacles g.lastObstacleTime env).any (hits (pRect g.pos)) = true) := by
    intro g env h
    rw [update_gameState g env h]
    by_cases hany : (liveObstacles g.obstacles g.lastObstacleTime env).any (hits (pRect g.pos)) = true
    · simp [hany]
    · simp [hany]
  refine ⟨hgo g env h, update_score g env h, update_pos g env h, fun env2 h2 => ?_⟩
  have e := update_pos g env h
  refine ⟨?_, ?_⟩
  · rw [← e]; exact hgo _ env2 h2
  · rw [← e]; exact update_score _ env2 h2

/-- C6 (amended) at the concrete tick of the counterexample: the test reads
the start position (150, 300), whose hitbox top 315 is inside the gap. -/
theorem update_tests_start_position_witness :
    grazeGame.gameState = GameState.PLAYING ∧
      ((update grazeGame upEnv).gameState = GameState.GAMEOVER ↔
        (liveObstacles grazeGame.obstacles grazeGame.lastObstacleTime upEnv).any
          (hits (pRect grazeGame.pos)) = true) :=
  ⟨rfl, (update_tests_start_position grazeGame upEnv rfl).1⟩

/-! ## C7: the theme index -/

theorem THEMES_length : THEMES.length = 5 := rfl

theorem themeEffect_bgIndex (g : Game) :
    (themeEffect g).bgIndex =
      if 0 < g.score ∧ g.score % 5 = 0 then (g.score / 5) % THEMES.length else g.bgIndex := by
  unfold themeEffect
  by_cases h : g.score > 0 ∧ g.score % 5 = 0
  · rw [if_pos h, if_pos h]
    by_cases h2 : (g.score / 5) % THEMES.length ≠ g.bgIndex
    · simp [h2]
    · simp only [h2, if_false]
      exact (not_not.mp h2).symm
  · rw [if_neg h, if_neg h]

theorem themeEffect_score (g : Game) : (themeEffect g).score = g.score := by
  unfold themeEffect
  split
  · simp only []
    split <;> rfl
  · rfl

theorem highScoreEffect_fields (g : Game) :
    (highScoreEffect g).score = g.score ∧ (highScoreEffect g).bgIndex = g.bgIndex := by
  unfold highScoreEffect
  split <;> simp

theorem update_bgIndex (g : Game) (env : Env) : (update g env).bgIndex = g.bgIndex := by
  unfold update
  split <;> rfl

/-- C7 fails as stated: a tick in which two obstacles clear the player takes
Score from 4 to 6; the theme effect then leaves bgIndex at 0, while
floor(6 / 5) mod 5 = 1. -/
theorem theme_skip_counterexample :
    (themeEffect (update skipGame sampleEnv)).score = 6 ∧
      (themeEffect (update skipGame sampleEnv)).bgIndex = 0 ∧
      ¬ ((themeEffect (update skipGame sampleEnv)).bgIndex = (6 / 5) % THEMES.length) := by
  have hs : (update skipGame sampleEnv).score = 6 := by
    rw [update_score _ _ rfl]
    norm_num [liveObstacles, scrolled, scroll, kept, spawnDue, skipGame, sampleEnv, startGame,
      initial, passes, pRect, SPAWN_RATE, SCROLL_SPEED, OBSTACLE_WIDTH, List.countP_cons]
  have hb : (themeEffect (update skipGame sampleEnv)).bgIndex = 0 := by
    rw [themeEffect_bgIndex, hs, update_bgIndex]
    simp [skipGame, startGame]
  refine ⟨by rw [themeEffect_score, hs], hb, ?_⟩
  rw [hb, THEMES_length]
  decide

/-- C7 (amended): the theme effect recomputes bgIndex only at the positive
multiples of 5: for Score s > 0 with s mod 5 = 0 it sets bgIndex to
floor(s / 5) mod THEMES.length whatever it was, for every other s it leaves
bgIndex as it is; `startGame` sets Score 0 and bgIndex 0. Hence, as long as a
tick raises Score by at most one, bgIndex = floor(Score / 5) mod THEMES.length
is kept by the tick and its effects, and bgIndex is 2 at Score 12. -/
theorem theme_index_tracks_score :
    (∀ g : Game, (themeEffect g).bgIndex =
      if 0 < g.score ∧ g.score % 5 = 0 then (g.score / 5) % THEMES.length else g.bgIndex) ∧
    (∀ (g : Game) (now : Int), (startGame g now).score = 0 ∧
      (startGame g now).bgIndex = ((startGame g now).score / 5) % THEMES.length) ∧
    (∀ (g : Game) (env : Env), g.bgIndex = (g.score / 5) % THEMES.length →
      (update g env).score ≤ g.score + 1 →
      (frame g env).bgIndex = ((frame g env).score / 5) % THEMES.length) ∧
    (∀ g : Game, g.bgIndex = (g.score / 5) % THEMES.length → g.score = 12 → g.bgIndex = 2) := by
  refine ⟨themeEffect_bgIndex, fun g now => ⟨rfl, by simp [startGame]⟩, fun g env hinv hle => ?_, fun g hinv h12 => ?_⟩
  · have hge := update_score_le g env
    have hb := update_bgIndex g env
    obtain ⟨e1, e2⟩ := highScoreEffect_fields (themeEffect (update g env))
    simp only [frame]
    rw [e1, e2, themeEffect_score, themeEffect_bgIndex, hb, hinv, THEMES_length]
    by_cases hc : 0 < (update g env).score ∧ (update g env).score % 5 = 0
    · rw [if_pos hc]
    · rw [if_neg hc]
      have hcases : (update g env).score = g.score ∨ (update g env).score = g.score + 1 := by omega
      rcases hcases with e | e
      · rw [e]
      · rw [e] at hc ⊢
        have : (g.score + 1) / 5 = g.score / 5 := by omega
        rw [this]
  · rw [hinv, h12, THEMES_length]

/-- C7 (amended) at a concrete tick: Score goes from 4 to 5 and the effect
brings bgIndex in line with it. -/
theorem theme_index_tracks_score_witness :
    fourGame.bgIndex = (fourGame.score / 5) % THEMES.length ∧
      (update fourGame sampleEnv).score ≤ fourGame.score + 1 ∧
      (frame fourGame sampleEnv).bgIndex = ((frame fourGame sampleEnv).score / 5) % THEMES.length :=
  have hle : (update fourGame sampleEnv).score ≤ fourGame.score + 1 := by
    rw [update_score _ _ rfl]
    norm_num [liveObstacles, scrolled, scroll, kept, spawnDue, fourGame, sampleEnv, startGame,
      initial, passes, pRect, SPAWN_RATE, SCROLL_SPEED, OBSTACLE_WIDTH, List.countP_cons]
  ⟨rfl, hle, theme_index_tracks_score.2.2.1 fourGame sampleEnv rfl hle⟩

/-! ## C8: input sampling -/

theorem newVel_eq (keys : List String) :
    (newVel keys).y =
        (if "arrowdown" ∈ keys ∨ "s" ∈ keys then MOVE_SPEED else 0) -
          (if "arrowup" ∈ keys ∨ "w" ∈ keys then MOVE_SPEED else 0) ∧
    (newVel keys).x =
        (if "arrowright" ∈ keys ∨ "d" ∈ keys then MOVE_SPEED else 0) -
          (if "arrowleft" ∈ keys ∨ "a" ∈ keys then MOVE_SPEED else 0) := by
  simp only [newVel, has, Bool.or_eq_true, decide_eq_true_eq]
  constructor <;> split_ifs <;> simp

theorem update_velocity (g : Game) (env : Env) (h : g.gameState = GameState.PLAYING) :
    (update g env).velocity = newVel env.keys := by
  simp [update, h]

/-- C8: the velocity of a tick is `newVel` of the held-key set; each axis is
-MOVE_SPEED, 0 or +MOVE_SPEED; an axis is 0 when both of its directions are
held (in any mix of the two bindings), -MOVE_SPEED exactly when only up/left is
held and +MOVE_SPEED exactly when only down/right is held; two key sets with
the same members give the same velocity. -/
theorem newVel_cancels (keys : List String) :
    (∀ (g : Game) (env : Env), g.gameState = GameState.PLAYING → env.keys = keys →
      (update g env).velocity = newVel keys) ∧
    ((newVel keys).y = -MOVE_SPEED ∨ (newVel keys).y = 0 ∨ (newVel keys).y = MOVE_SPEED) ∧
    ((newVel keys).x = -MOVE_SPEED ∨ (newVel keys).x = 0 ∨ (newVel keys).x = MOVE_SPEED) ∧
    (("arrowup" ∈ keys ∨ "w" ∈ keys) → ("arrowdown" ∈ keys ∨ "s" ∈ keys) → (newVel keys).y = 0) ∧
    (("arrowleft" ∈ keys ∨ "a" ∈ keys) → ("arrowright" ∈ keys ∨ "d" ∈ keys) →
      (newVel keys).x = 0) ∧
    ((newVel keys).y = -MOVE_SPEED ↔
      ("arrowup" ∈ keys ∨ "w" ∈ keys) ∧ ¬ ("arrowdown" ∈ keys ∨ "s" ∈ keys)) ∧
    ((newVel keys).y = MOVE_SPEED ↔
      ("arrowdown" ∈ keys ∨ "s" ∈ keys) ∧ ¬ ("arrowup" ∈ keys ∨ "w" ∈ keys)) ∧
    ((newVel keys).x = -MOVE_SPEED ↔
      ("arrowleft" ∈ keys ∨ "a" ∈ keys) ∧ ¬ ("arrowright" ∈ keys ∨ "d" ∈ keys)) ∧
    ((newVel keys).x = MOVE_SPEED ↔
      ("arrowright" ∈ keys ∨ "d" ∈ keys) ∧ ¬ ("arrowleft" ∈ keys ∨ "a" ∈ keys)) ∧
    (∀ keys2 : List String, (∀ k : String, k ∈ keys2 ↔ k ∈ keys) → newVel keys2 = newVel keys) := by
  obtain ⟨hy, hx⟩ := newVel_eq keys
  refine ⟨fun g env h hk => by rw [update_velocity g env h, hk], ?_, ?_, ?_, ?_, ?_, ?_, ?_, ?_, ?_⟩
  · rw [hy]
    by_cases hu : "arrowup" ∈ keys ∨ "w" ∈ keys <;> by_cases hd : "arrowdown" ∈ keys ∨ "s" ∈ keys <;>
      simp [hu, hd, MOVE_SPEED]
  · rw [hx]
    by_cases hl : "arrowleft" ∈ keys ∨ "a" ∈ keys <;> by_cases hr : "arrowright" ∈ keys ∨ "d" ∈ keys <;>
      simp [hl, hr, MOVE_SPEED]
  · intro hu hd
    rw [hy]; simp [hu, hd]
  · intro hl hr
    rw [hx]; simp [hl, hr]
  · rw [hy]
    by_cases hu : "arrowup" ∈ keys ∨ "w" ∈ keys <;> by_cases hd : "arrowdown" ∈ keys ∨ "s" ∈ keys <;>
      simp only [hu, hd, if_true, if_false, not_true, not_false_eq_true, and_true, and_false,
        true_and, false_and, iff_true, iff_false] <;> norm_num [MOVE_SPEED]
  · rw [hy]
    by_cases hu : "arrowup" ∈ keys ∨ "w" ∈ keys <;> by_cases hd : "arrowdown" ∈ keys ∨ "s" ∈ keys <;>
      simp only [hu, hd, if_true, if_false, not_true, not_false_eq_true, and_true, and_false,
        true_and, false_and, iff_true, iff_false] <;> norm_num [MOVE_SPEED]
  · rw [hx]
    by_cases hl : "arrowleft" ∈ keys ∨ "a" ∈ keys <;> by_cases hr : "arrowright" ∈ keys ∨ "d" ∈ keys <;>
      simp only [hl, hr, if_true, if_false, not_true, not_false_eq_true, and_true, and_false,
        true_and, false_and, iff_true, iff_false] <;> norm_num [MOVE_SPEED]
  · rw [hx]
    by_cases hl : "arrowleft" ∈ keys ∨ "a" ∈ keys <;> by_cases hr : "arrowright" ∈ keys ∨ "d" ∈ keys <;>
      simp only [hl, hr, if_true, if_false, not_true, not_false_eq_true, and_true, and_false,
        true_and, false_and, iff_true, iff_false] <;> norm_num [MOVE_SPEED]
  · intro keys2 hmem
    obtain ⟨hy2, hx2⟩ := newVel_eq keys2
    have e : ∀ a b : Vec, a.x = b.x → a.y = b.y → a = b := by
      intro a b h1 h2
      cases a; cases b; simp_all
    apply e
    · rw [hx, hx2]; simp only [hmem]
    · rw [hy, hy2]; simp only [hmem]

/-- C8 at a concrete key set: 'w' (alternate up) with 'arrowdown' (primary
down) gives zero vertical velocity. -/
theorem newVel_cancels_witness :
    ("arrowup" ∈ ["w", "arrowdown"] ∨ "w" ∈ ["w", "arrowdown"]) ∧
      ("arrowdown" ∈ ["w", "arrowdown"] ∨ "s" ∈ ["w", "arrowdown"]) ∧
      (newVel ["w", "arrowdown"]).y = 0 :=
  ⟨by simp, by simp,
    (newVel_cancels ["w", "arrowdown"]).2.2.2.1 (by simp) (by simp)⟩

/-! ## C9: the high score -/

theorem highScoreEffect_highScore (g : Game) :
    (highScoreEffect g).highScore = max g.highScore g.score := by
  unfold highScoreEffect
  by_cases h : g.score > g.highScore
  · rw [if_pos h]
    exact (max_eq_right (le_of_lt h)).symm
  · rw [if_neg h]
    exact (max_eq_left (not_lt.mp h)).symm

theorem themeEffect_highScore (g : Game) : (themeEffect g).highScore = g.highScore := by
  unfold themeEffect
  split
  · simp only []
    split <;> rfl
  · rfl

theorem update_highScore (g : Game) (env : Env) : (update g env).highScore = g.highScore := by
  unfold update
  split <;> rfl

theorem step_highScore_le (g : Game) (a : Action) : g.highScore ≤ (step g a).highScore := by
  cases a with
  | begin now => exact le_refl _
  | tick env => rw [step, update_highScore]
  | themeFx => rw [step, themeEffect_highScore]
  | highScoreFx => rw [step, highScoreEffect_highScore]; exact le_max_left _ _

/-- C9: a run of the high-score effect sets HighScore to
max(previous HighScore, Score), so it is at least Score and at least its
previous value; `startGame` resets Score to 0 and leaves HighScore alone, as do
a tick and the theme effect; hence HighScore never decreases over any sequence
of begin clicks, ticks and effect runs. -/
theorem highScore_never_decreases :
    (∀ g : Game, (highScoreEffect g).highScore = max g.highScore g.score ∧
      g.score ≤ (highScoreEffect g).highScore ∧ g.highScore ≤ (highScoreEffect g).highScore) ∧
    (∀ (g : Game) (now : Int), (startGame g now).highScore = g.highScore ∧
      (startGame g now).score = 0) ∧
    (∀ (g : Game) (env : Env), (update g env).highScore = g.highScore) ∧
    (∀ g : Game, (themeEffect g).highScore = g.highScore) ∧
    (∀ (acts : List Action) (g : Game), g.highScore ≤ (run g acts).highScore) := by
  refine ⟨fun g => ?_, fun g now => ⟨rfl, rfl⟩, update_highScore, themeEffect_highScore, ?_⟩
  · rw [highScoreEffect_highScore]
    exact ⟨rfl, le_max_right _ _, le_max_left _ _⟩
  · intro acts
    induction acts with
    | nil => intro g; exact le_refl _
    | cons a rest ih =>
      intro g
      simp only [run, List.foldl_cons] at ih ⊢
      exact le_trans (step_highScore_le g a) (ih (step g a))

/-! ## C10: nothing is culled unscored -/

theorem fieldOk_update (g : Game) (env : Env) (h : FieldOk g) : FieldOk (update g env) := by
  by_cases hp : g.gameState = GameState.PLAYING
  · obtain ⟨hx, _⟩ := h
    refine ⟨?_, ?_⟩
    · rw [update_pos g env hp]
      exact (nextPos_bounds _ _ _ _).1
    · intro obs hmem
      rw [update_obstacles g env hp] at hmem
      obtain ⟨o, _, rfl⟩ := List.mem_map.mp hmem
      by_cases hpass : passes (pRect g.pos) o = true
      · left; simp [mark, hpass]
      · have hm : mark (pRect g.pos) o = o := by simp [mark, hpass]
        rw [hm]
        by_cases hop : o.passed = true
        · exact Or.inl hop
        · right
          have hnot : ¬ (o.x + OBSTACLE_WIDTH < (pRect g.pos).left) := by
            intro hlt
            apply hpass
            simp only [passes, Bool.and_eq_true, Bool.not_eq_true', decide_eq_true_eq]
            exact ⟨by simpa using hop, hlt⟩
          simp only [pRect, OBSTACLE_WIDTH, not_lt] at hnot
          linarith
  · rw [update_of_not_playing g env hp]
    exact h

theorem fieldOk_runTicks (envs : List Env) (g : Game) (h : FieldOk g) :
    FieldOk (runTicks g envs) := by
  induction envs generalizing g with
  | nil => exact h
  | cons env rest ih =>
    simp only [runTicks, List.foldl_cons] at ih ⊢
    exact ih (update g env) (fieldOk_update g env h)

/-- C10: in a run of ticks of a game that starts with an empty field and the
player at x >= 20, the player stays at x >= 20 and every obstacle that the
next tick's cull removes (scrolled x <= -OBSTACLE_WIDTH) already has
passed = true, so its Score increment was made on an earlier tick. -/
theorem culled_obstacles_passed (g : Game) (envs : List Env)
    (hx : 20 ≤ g.pos.x) (hfresh : g.obstacles = []) :
    20 ≤ (runTicks g envs).pos.x ∧
      ∀ obs ∈ (runTicks g envs).obstacles,
        (scroll obs).x ≤ -OBSTACLE_WIDTH → obs.passed = true := by
  have h0 : FieldOk g := ⟨hx, by rw [hfresh]; simp⟩
  obtain ⟨h1, h2⟩ := fieldOk_runTicks envs g h0
  refine ⟨h1, fun obs hmem hcull => ?_⟩
  rcases h2 obs hmem with hp | hx
  · exact hp
  · simp only [scroll, SCROLL_SPEED, OBSTACLE_WIDTH] at hcull
    linarith

set_option maxRecDepth 100000 in
set_option maxHeartbeats 2000000 in
theorem narrowRun_obstacles :
    (runTicks (startGame initial 0) narrowRun).obstacles = [⟨1334, -96, 190, true⟩] := by
  simp only [narrowRun, runTicks, List.replicate, List.foldl_cons, List.foldl_nil]
  norm_num [update, startGame, initial, narrowSpawnEnv, narrowEnv, collisionLoop, liveObstacles,
    scrolled, scroll, kept, spawnDue, SPAWN_RATE, SCROLL_SPEED, spawned, loopBody, hits, passes,
    pRect, PLAYER_WIDTH, PLAYER_HEIGHT, OBSTACLE_WIDTH, OBSTACLE_GAP, spawnHeight, nextPos, newVel,
    has, MOVE_SPEED]

/-- C10 on a concrete run: after seventeen ticks in a viewport of width 0 the
one obstacle is at x = -96, the next scroll takes it to -102 <= -100, and its
`passed` flag is set. -/
theorem culled_obstacles_passed_witness :
    20 ≤ (startGame initial 0).pos.x ∧ (startGame initial 0).obstacles = [] ∧
      (⟨1334, -96, 190, true⟩ : Obstacle) ∈ (runTicks (startGame initial 0) narrowRun).obstacles ∧
      (scroll ⟨1334, -96, 190, true⟩).x ≤ -OBSTACLE_WIDTH ∧
      20 ≤ (runTicks (startGame initial 0) narrowRun).pos.x ∧
      (⟨1334, -96, 190, true⟩ : Obstacle).passed = true :=
  have hx : (20 : ℚ) ≤ (startGame initial 0).pos.x := by norm_num [startGame]
  have hmem : (⟨1334, -96, 190, true⟩ : Obstacle) ∈
      (runTicks (startGame initial 0) narrowRun).obstacles := by
    rw [narrowRun_obstacles]; exact List.mem_singleton.mpr rfl
  have hcull : (scroll ⟨1334, -96, 190, true⟩).x ≤ -OBSTACLE_WIDTH := by
    norm_num [scroll, SCROLL_SPEED, OBSTACLE_WIDTH]
  ⟨hx, rfl, hmem, hcull,
    (culled_obstacles_passed (startGame initial 0) narrowRun hx rfl).1,
    (culled_obstacles_passed (startGame initial 0) narrowRun hx rfl).2 _ hmem hcull⟩

end IronmanGame
